import Mathlib

/-!
Shallow embedding of the agent-orchestration core of the
Email AI Productivity Agent repository (Python), together with proofs of
the specification claims about it.

Python modules embedded here:
  backend/models/email.py        (EmailCategory, ActionItem, Email)
  backend/models/draft.py        (EmailDraft)
  backend/services/llm_service.py     (categorize_email, extract_action_items)
  backend/services/database_service.py (save_email, get_email, save_draft, get_draft)
  backend/services/email_service.py   (process_email)
  backend/agents/categorization_agent.py (categorize_single_email)
  backend/agents/action_item_agent.py (get_all_action_items,
      mark_action_item_complete, get_action_items_by_priority)
  backend/agents/draft_agent.py  (generate_reply_draft)

External effects (the LLM call itself, MongoDB, Pinecone) are modelled by
explicit parameters and explicit state: the databases are association
lists keyed by the application id, and the text produced by the LLM is an
input of each embedded function.  Python `datetime` values are modelled by
a record of calendar fields, and their ISO-8601 serialization (datetime
.isoformat, and the parse performed on reload) is implemented concretely
so that the round-trip claims are about real string processing.
-/

/-- Model from `backend/models/email.py`: the five-value category enum. -/
inductive EmailCategory where
  | URGENT
  | ACTION_REQUIRED
  | INFORMATIONAL
  | SPAM
  | UNCATEGORIZED
deriving DecidableEq, Repr

/-- Python `EmailCategory(value)`: enum lookup by value string; raises
`ValueError` (here: `none`) on any string that is not one of the five
member values. -/
def EmailCategory.ofValue : String → Option EmailCategory
  | "URGENT" => some .URGENT
  | "ACTION_REQUIRED" => some .ACTION_REQUIRED
  | "INFORMATIONAL" => some .INFORMATIONAL
  | "SPAM" => some .SPAM
  | "UNCATEGORIZED" => some .UNCATEGORIZED
  | _ => none

/-- The `.value` string of a category member. -/
def EmailCategory.value : EmailCategory → String
  | .URGENT => "URGENT"
  | .ACTION_REQUIRED => "ACTION_REQUIRED"
  | .INFORMATIONAL => "INFORMATIONAL"
  | .SPAM => "SPAM"
  | .UNCATEGORIZED => "UNCATEGORIZED"

/-- Model from `backend/models/email.py`: `ActionItem` (pydantic model). -/
structure ActionItem where
  description : String
  priority : String := "Medium"
  deadline : Option String := none
  completed : Bool := false
deriving DecidableEq, Repr

/-- Python `datetime.datetime` (naive, as produced by `datetime.now()`):
a record of calendar fields. -/
structure Datetime where
  year : Nat
  month : Nat
  day : Nat
  hour : Nat
  minute : Nat
  second : Nat
  microsecond : Nat
deriving DecidableEq, Repr

/-- The field ranges Python's `datetime` constructor enforces
(`MINYEAR = 1`, `MAXYEAR = 9999`, and so on). -/
def Datetime.Valid (t : Datetime) : Prop :=
  1 ≤ t.year ∧ t.year ≤ 9999 ∧
  1 ≤ t.month ∧ t.month ≤ 12 ∧
  1 ≤ t.day ∧ t.day ≤ 31 ∧
  t.hour ≤ 23 ∧ t.minute ≤ 59 ∧ t.second ≤ 59 ∧
  t.microsecond ≤ 999999

instance (t : Datetime) : Decidable t.Valid := by
  unfold Datetime.Valid; infer_instance

/-- Model from `backend/models/email.py`: `Email` (pydantic model).  The
application-generated `id` is a field; defaults are the pydantic field
defaults. -/
structure Email where
  id : String
  sender : String
  recipient : String
  subject : String
  body : String
  timestamp : Datetime
  category : EmailCategory := .UNCATEGORIZED
  category_reason : Option String := none
  action_items : List ActionItem := []
  has_attachments : Bool := false
  attachment_names : List String := []
  thread_id : Option String := none
  is_read : Bool := false
  is_starred : Bool := false
  embedding_id : Option String := none
deriving DecidableEq, Repr

/-- Model from `backend/models/draft.py`: `EmailDraft` (pydantic model). -/
structure EmailDraft where
  id : String
  original_email_id : Option String := none
  recipient : String
  subject : String
  body : String
  created_at : Datetime
  updated_at : Datetime
  category : Option String := none
  action_items : List String := []
  suggested_followups : List String := []
  is_sent : Bool := false
  is_saved : Bool := true
deriving DecidableEq, Repr

/-! ## LLM service (`backend/services/llm_service.py`)

`json.loads` is Python-library code, not repository code: it enters the
embedding as an explicit parse-function parameter, so the embedded
helpers capture exactly the repository's post-processing around it. -/

/-- A parsed JSON object of the shape `categorize_email` expects: a
string-keyed dictionary of strings. -/
def Jdict := List (String × String)

instance : DecidableEq Jdict := by
  unfold Jdict; infer_instance

/-- Python `dict.get(key, default)`. -/
def Jdict.get (d : Jdict) (key dflt : String) : String :=
  match List.find? (fun kv => kv.1 == key) d with
  | some kv => kv.2
  | none => dflt

/-- A raw action-item dictionary as parsed from the model's JSON;
optional keys mirror the pydantic defaults applied by
`ActionItem(**item)`. -/
structure RawActionItem where
  description : String
  priority : String := "Medium"
  deadline : Option String := none
deriving DecidableEq, Repr

/-- Python `ActionItem(**item)`: build an `ActionItem` from a raw parsed
dictionary, `completed` defaulting to false. -/
def RawActionItem.toActionItem (r : RawActionItem) : ActionItem :=
  { description := r.description, priority := r.priority,
    deadline := r.deadline, completed := false }

/-- The parse result `extract_action_items` expects: a dictionary whose
optional key `action_items` holds a list of raw items
(`result.get("action_items", [])`). -/
structure ExtractParse where
  action_items : Option (List RawActionItem)
deriving DecidableEq, Repr

/-- Python `s.startswith(p)`: `p` is a prefix of `s`. -/
def pyStartsWith (s p : String) : Bool := p.toList.isPrefixOf s.toList

/-- Python `s.endswith(p)`: `p` is a suffix of `s`. -/
def pyEndsWith (s p : String) : Bool := p.toList.isSuffixOf s.toList

namespace LLMService

/-- The fence-stripping done inline in `categorize_email` and
`extract_action_items` (llm_service.py lines 70-76 and 108-114):
strip the response, drop a leading three-backtick json marker and a
trailing three-backtick marker, strip again before parsing. -/
def stripCodeFences (response : String) : String :=
  let rc := response.trim
  let rc := if pyStartsWith rc "```json" then rc.drop 7 else rc
  let rc := if pyEndsWith rc "```" then rc.dropRight 3 else rc
  rc.trim

/-- Embedding of `LLMService.categorize_email`, from the raw LLM response text on:
parse the fence-stripped response with `json.loads` (the `jsonParse`
parameter); on parse failure (`none`) return the safe default
dictionary. -/
def categorize_email (jsonParse : String → Option Jdict)
    (response : String) : Jdict :=
  match jsonParse (stripCodeFences response) with
  | some result => result
  | none => [("category", "UNCATEGORIZED"), ("reason", "Unable to categorize")]

/-- Embedding of `LLMService.extract_action_items`, from the raw LLM response text on:
parse the fence-stripped response; on success return
`result.get("action_items", [])`, on parse failure return `[]`. -/
def extract_action_items (jsonParse : String → Option ExtractParse)
    (response : String) : List RawActionItem :=
  match jsonParse (stripCodeFences response) with
  | some result => result.action_items.getD []
  | none => []

end LLMService

/-! ## Database service (`backend/services/database_service.py`)

MongoDB collections are modelled as lists of documents; `update_one`
with `upsert=True` on the unique `id` index replaces the matching
document or appends. -/

namespace DatabaseService

/-- Embedding of `save_email`: upsert-by-id into the emails collection. -/
def save_email : List Email → Email → List Email
  | [], e => [e]
  | x :: rest, e =>
    if x.id == e.id then e :: rest else x :: save_email rest e

/-- Embedding of `get_email`: find-by-id in the emails collection. -/
def get_email (db : List Email) (email_id : String) : Option Email :=
  List.find? (fun x => x.id == email_id) db

end DatabaseService

/-! ## Categorization agent (`backend/agents/categorization_agent.py`) -/

namespace CategorizationAgent

/-- Embedding of `CategorizationAgent.categorize_single_email`, from the LLM result
on (lines 49-62): coerce `result.get('category', 'UNCATEGORIZED')` onto
the enum, falling back to `UNCATEGORIZED` when `EmailCategory(...)`
raises `ValueError`; store the reason; save the email.  Returns the
updated email together with the updated email collection. -/
def categorize_single_email (db : List Email) (email : Email)
    (result : Jdict) : Email × List Email :=
  let category :=
    match EmailCategory.ofValue (result.get "category" "UNCATEGORIZED") with
    | some c => c
    | none => EmailCategory.UNCATEGORIZED
  let email :=
    { email with
      category := category,
      category_reason := some (result.get "reason" "No reason provided") }
  (email, DatabaseService.save_email db email)

end CategorizationAgent

/-! ## Action-item agent (`backend/agents/action_item_agent.py`)

The agent's read operations act on the email list the database returns
(`get_all_emails(limit=1000)`); that retrieved list is the `emails`
parameter here. -/

/-- One entry of the aggregate built by `get_all_action_items`: the
dictionary `{email_id, email_subject, email_sender, action_item}`. -/
structure AggEntry where
  email_id : String
  email_subject : String
  email_sender : String
  action_item : ActionItem
deriving DecidableEq, Repr

namespace ActionItemAgent

/-- The numeric sort key `priority_order.get(priority, 3)` with
`priority_order = {"High": 0, "Medium": 1, "Low": 2}` (action_item_agent
.py lines 83-86). -/
def priorityKey (p : String) : Nat :=
  if p == "High" then 0
  else if p == "Medium" then 1
  else if p == "Low" then 2
  else 3

/-- The flattening loop of `get_all_action_items` (lines 71-80): one
entry per action item of each email, keeping completed items only when
`include_completed` is set. -/
def collectItems (emails : List Email) (include_completed : Bool) :
    List AggEntry :=
  emails.flatMap fun e =>
    (e.action_items.filter
        (fun a => include_completed || !a.completed)).map
      fun a =>
        { email_id := e.id, email_subject := e.subject,
          email_sender := e.sender, action_item := a }

/-- Python's `list.sort(key=...)` is a stable sort; for the key
`priorityKey`, whose range is `{0, 1, 2, 3}`, the stable sort of a list
is exactly the concatenation of its equal-key groups in key order, which
is how it is rendered here. -/
def sortByPriority (l : List AggEntry) : List AggEntry :=
  (l.filter fun x => priorityKey x.action_item.priority == 0) ++
  (l.filter fun x => priorityKey x.action_item.priority == 1) ++
  (l.filter fun x => priorityKey x.action_item.priority == 2) ++
  (l.filter fun x => priorityKey x.action_item.priority == 3)

/-- Embedding of `ActionItemAgent.get_all_action_items` (lines 63-88): flatten, then
sort by priority. -/
def get_all_action_items (emails : List Email)
    (include_completed : Bool := false) : List AggEntry :=
  sortByPriority (collectItems emails include_completed)

/-- The scan-and-mark loop of `mark_action_item_complete` (lines
105-110): set `completed = True` on the first action item whose
description matches exactly; `none` when no item matches. -/
def markFirstMatch : List ActionItem → String → Option (List ActionItem)
  | [], _ => none
  | item :: rest, desc =>
    if item.description == desc then
      some ({ item with completed := true } :: rest)
    else
      (markFirstMatch rest desc).map (fun rest1 => item :: rest1)

/-- Embedding of `ActionItemAgent.mark_action_item_complete` (lines 93-116): look the
email up by id, scan its action items for an exact description match,
mark the first match completed and save; return whether a match was
found, together with the resulting email collection. -/
def mark_action_item_complete (db : List Email) (email_id : String)
    (action_item_description : String) : Bool × List Email :=
  match DatabaseService.get_email db email_id with
  | none => (false, db)
  | some email =>
    match markFirstMatch email.action_items action_item_description with
    | none => (false, db)
    | some items =>
      (true, DatabaseService.save_email db { email with action_items := items })

/-- Embedding of `ActionItemAgent.get_action_items_by_priority` (lines 118-127):
filter `get_all_action_items()` — called with its default
`include_completed=False` — by exact priority match. -/
def get_action_items_by_priority (emails : List Email)
    (priority : String) : List AggEntry :=
  (get_all_action_items emails).filter
    fun item => item.action_item.priority == priority

end ActionItemAgent

/-! ## Draft agent (`backend/agents/draft_agent.py`) -/

namespace DraftAgent

/-- Embedding of `DraftAgent.generate_reply_draft`, from the generated reply body on
(lines 52-69): derive the subject, build the draft.  `reply_body` and
`followups` stand for the LLM outputs; `draft_id` and `now` stand for
the pydantic default factories (`str(datetime.now().timestamp())` and
`datetime.now()`). -/
def generate_reply_draft (original_email : Email) (reply_body : String)
    (followups : List String) (draft_id : String) (now : Datetime) :
    EmailDraft :=
  let subject :=
    if pyStartsWith original_email.subject "Re: " then original_email.subject
    else "Re: " ++ original_email.subject
  { id := draft_id,
    original_email_id := some original_email.id,
    recipient := original_email.sender,
    subject := subject,
    body := reply_body,
    created_at := now,
    updated_at := now,
    category := some original_email.category.value,
    action_items := original_email.action_items.map
      (fun item => item.description),
    suggested_followups := followups }

end DraftAgent

/-! ## ISO-8601 serialization of datetimes

`EmailDraft.Config.json_encoders` serializes every `datetime` with
`datetime.isoformat()`; on reload, `EmailDraft(**result)` parses the ISO
string back into a `datetime`.  Both directions are implemented here
concretely on character lists. -/

/-- The decimal digit character for `n < 10`. -/
def digitChar (n : Nat) : Char := Char.ofNat (48 + n)

/-- The numeric value of a digit character. -/
def digitVal (c : Char) : Nat := c.toNat - 48

/-- Value `n` rendered in decimal, zero-padded to exactly `w` digits (the
field rendering of `datetime.isoformat`, which pads the year to 4 digits,
month through second to 2, and microseconds to 6). -/
def padDigits : Nat → Nat → List Char
  | 0, _ => []
  | w + 1, n => padDigits w (n / 10) ++ [digitChar (n % 10)]

/-- Consume exactly `w` digit characters from the front, accumulating
their value onto `acc`; `none` if a non-digit or the end is reached. -/
def takeNum : Nat → Nat → List Char → Option (Nat × List Char)
  | acc, 0, cs => some (acc, cs)
  | acc, w + 1, c :: cs =>
    if c.isDigit then takeNum (acc * 10 + digitVal c) w cs else none
  | _, _ + 1, [] => none

/-- Consume one expected character from the front. -/
def expectChar (c : Char) : List Char → Option (List Char)
  | x :: rest => if x = c then some rest else none
  | [] => none

/-- Python `datetime.isoformat()` as a character list:
`YYYY-MM-DDTHH:MM:SS`, extended with `.ffffff` exactly when the
microsecond field is nonzero. -/
def Datetime.isoChars (t : Datetime) : List Char :=
  padDigits 4 t.year ++ '-' :: padDigits 2 t.month ++
  '-' :: padDigits 2 t.day ++ 'T' :: padDigits 2 t.hour ++
  ':' :: padDigits 2 t.minute ++ ':' :: padDigits 2 t.second ++
  (if t.microsecond == 0 then [] else '.' :: padDigits 6 t.microsecond)

/-- Python `datetime.isoformat()`. -/
def Datetime.isoformat (t : Datetime) : String := String.mk t.isoChars

/-- The parse pydantic applies to a persisted datetime string on
reload, on the grammar `isoformat` emits: fixed-width date and time
fields separated by the ISO punctuation, with an optional 6-digit
fractional-second part. -/
def parseIsoChars (cs : List Char) : Option Datetime :=
  match takeNum 0 4 cs with
  | none => none
  | some (y, cs) =>
  match expectChar '-' cs with
  | none => none
  | some cs =>
  match takeNum 0 2 cs with
  | none => none
  | some (mo, cs) =>
  match expectChar '-' cs with
  | none => none
  | some cs =>
  match takeNum 0 2 cs with
  | none => none
  | some (d, cs) =>
  match expectChar 'T' cs with
  | none => none
  | some cs =>
  match takeNum 0 2 cs with
  | none => none
  | some (h, cs) =>
  match expectChar ':' cs with
  | none => none
  | some cs =>
  match takeNum 0 2 cs with
  | none => none
  | some (mi, cs) =>
  match expectChar ':' cs with
  | none => none
  | some cs =>
  match takeNum 0 2 cs with
  | none => none
  | some (s, cs) =>
  match cs with
  | [] => some ⟨y, mo, d, h, mi, s, 0⟩
  | c :: cs1 =>
    if c = '.' then
      match takeNum 0 6 cs1 with
      | some (us, []) => some ⟨y, mo, d, h, mi, s, us⟩
      | _ => none
    else none

/-- Datetime parsing at the string level. -/
def Datetime.fromIso (str : String) : Option Datetime :=
  parseIsoChars str.toList

/-! ## Draft persistence (`backend/services/database_service.py`) -/

/-- The persisted form of a draft, `draft.model_dump(mode='json')`:
every field as stored in the drafts collection, the two datetime fields
as their ISO-8601 strings. -/
structure DraftDoc where
  id : String
  original_email_id : Option String
  recipient : String
  subject : String
  body : String
  created_at : String
  updated_at : String
  category : Option String
  action_items : List String
  suggested_followups : List String
  is_sent : Bool
  is_saved : Bool
deriving DecidableEq, Repr

/-- Python `draft.model_dump(mode='json')`: serialize a draft for storage,
datetimes via `isoformat`. -/
def EmailDraft.model_dump (d : EmailDraft) : DraftDoc :=
  { id := d.id,
    original_email_id := d.original_email_id,
    recipient := d.recipient,
    subject := d.subject,
    body := d.body,
    created_at := d.created_at.isoformat,
    updated_at := d.updated_at.isoformat,
    category := d.category,
    action_items := d.action_items,
    suggested_followups := d.suggested_followups,
    is_sent := d.is_sent,
    is_saved := d.is_saved }

/-- Python `EmailDraft(**result)`: rebuild the pydantic model from a stored
document, parsing the two datetime strings; fails if either does not
parse. -/
def DraftDoc.toDraft (doc : DraftDoc) : Option EmailDraft :=
  match Datetime.fromIso doc.created_at with
  | none => none
  | some c =>
  match Datetime.fromIso doc.updated_at with
  | none => none
  | some u =>
  some
    { id := doc.id,
      original_email_id := doc.original_email_id,
      recipient := doc.recipient,
      subject := doc.subject,
      body := doc.body,
      created_at := c,
      updated_at := u,
      category := doc.category,
      action_items := doc.action_items,
      suggested_followups := doc.suggested_followups,
      is_sent := doc.is_sent,
      is_saved := doc.is_saved }

namespace DatabaseService

/-- Upsert-by-id into the drafts collection (`update_one` with
`upsert=True` on the unique `id` index). -/
def upsertDraftDoc : List DraftDoc → DraftDoc → List DraftDoc
  | [], doc => [doc]
  | x :: rest, doc =>
    if x.id == doc.id then doc :: rest else x :: upsertDraftDoc rest doc

/-- Embedding of `DatabaseService.save_draft` (lines 180-193): overwrite the draft's
`updated_at` with `datetime.now()` (the `now` parameter), serialize with
`model_dump(mode='json')` and upsert by id.  Returns the id, the updated
collection, and the draft object as mutated by the call. -/
def save_draft (db : List DraftDoc) (draft : EmailDraft) (now : Datetime) :
    String × List DraftDoc × EmailDraft :=
  let draft := { draft with updated_at := now }
  (draft.id, upsertDraftDoc db draft.model_dump, draft)

/-- Embedding of `DatabaseService.get_draft` (lines 195-205): find the stored
document by id and rebuild the pydantic model from it. -/
def get_draft (db : List DraftDoc) (draft_id : String) : Option EmailDraft :=
  (List.find? (fun x => x.id == draft_id) db).bind DraftDoc.toDraft

end DatabaseService

/-! ## Email service (`backend/services/email_service.py`) -/

/-- The metadata dictionary `process_email` attaches to the vector
upsert. -/
structure VecMetadata where
  sender : String
  subject : String
  body_preview : String
  category : String
  timestamp : String
deriving DecidableEq, Repr

/-- Upsert-by-id into the vector index entry list. -/
def upsertVecEntry (email_id : String) (metadata : VecMetadata) :
    List (String × VecMetadata) → List (String × VecMetadata)
  | [] => [(email_id, metadata)]
  | x :: rest =>
    if x.1 == email_id then (email_id, metadata) :: rest
    else x :: upsertVecEntry email_id metadata rest

/-- Embedding of `VectorService.upsert_email`: upsert-by-id into the vector index
(the embedding vector itself is opaque; the entry is keyed by the email
id and carries the metadata).  Returns the email id. -/
def upsert_email (vec : List (String × VecMetadata)) (email_id : String)
    (metadata : VecMetadata) : String × List (String × VecMetadata) :=
  (email_id, upsertVecEntry email_id metadata vec)

namespace EmailService

/-- Embedding of `EmailService.process_email` (lines 56-109), from the two LLM
results on: set `email.category = EmailCategory(category_result.get(
'category', 'UNCATEGORIZED'))` — with no coercion, so an unrecognized
label raises `ValueError` (here `.error ()`), which the surrounding
handler logs and re-raises; then replace the action items, save the
email, and upsert it into the vector index.  On the error path nothing
has been saved or upserted. -/
def process_email (db : List Email) (vec : List (String × VecMetadata))
    (email : Email) (category_result : Jdict)
    (action_items_data : List RawActionItem) :
    Except Unit (Email × List Email × List (String × VecMetadata)) :=
  match EmailCategory.ofValue (category_result.get "category" "UNCATEGORIZED") with
  | none => .error ()
  | some cat =>
    let email :=
      { email with
        category := cat,
        category_reason := some (category_result.get "reason" "") }
    let email :=
      { email with
        action_items := action_items_data.map RawActionItem.toActionItem }
    let db := DatabaseService.save_email db email
    let metadata : VecMetadata :=
      { sender := email.sender,
        subject := email.subject,
        body_preview := email.body.take 200,
        category := email.category.value,
        timestamp := email.timestamp.isoformat }
    let (embedding_id, vec) := upsert_email vec email.id metadata
    let email := { email with embedding_id := some embedding_id }
    .ok (email, db, vec)

end EmailService

/-! ## Sample values used by witness theorems -/

/-- A sample valid datetime. -/
def sampleTime : Datetime := ⟨2025, 3, 14, 9, 26, 53, 589793⟩

/-- A sample ingested email. -/
def sampleEmail : Email :=
  { id := "e1", sender := "alice@example.com",
    recipient := "user@company.com", subject := "Status Update",
    body := "Please review the attached figures.", timestamp := sampleTime }

/-- The sample email with an already-prefixed reply subject. -/
def sampleEmailRe : Email := { sampleEmail with subject := "Re: Status Update" }

/-- A second valid datetime, with a zero microsecond field. -/
def sampleTime2 : Datetime := ⟨2025, 3, 15, 18, 0, 7, 0⟩

/-- A sample email carrying two pending action items. -/
def sampleActionEmail : Email :=
  { sampleEmail with
    id := "e2",
    action_items :=
      [{ description := "submit report by Friday", priority := "High",
         deadline := some "Friday" },
       { description := "book the meeting room", priority := "Low" }] }

/-- A sample email whose only action item is already completed. -/
def sampleCompletedEmail : Email :=
  { sampleEmail with
    id := "e3",
    action_items :=
      [{ description := "send the invoice", priority := "High",
         completed := true }] }

/-- A sample draft with valid timestamps. -/
def sampleDraft : EmailDraft :=
  { id := "d7", original_email_id := some "e1",
    recipient := "alice@example.com", subject := "Re: Status Update",
    body := "Thanks, I will take a look.", created_at := sampleTime,
    updated_at := sampleTime }

/-! ## Round-trip lemmas for the ISO-8601 serialization -/

/-- Zero-padded rendering has exactly the requested width. -/
theorem padDigits_length (w n : Nat) : (padDigits w n).length = w := by
  induction w generalizing n with
  | zero => rfl
  | succ w ih => simp [padDigits, ih]

/-- A rendered digit is a digit character. -/
theorem isDigit_digitChar (n : Nat) (h : n < 10) :
    (digitChar n).isDigit = true := by
  interval_cases n <;> decide

/-- Rendering then reading a single digit is the identity. -/
theorem digitVal_digitChar (n : Nat) (h : n < 10) :
    digitVal (digitChar n) = n := by
  interval_cases n <;> decide

/-- Every character of a zero-padded rendering is a digit. -/
theorem padDigits_all_digits (w n : Nat) :
    ∀ c ∈ padDigits w n, c.isDigit = true := by
  induction w generalizing n with
  | zero => intro c hc; cases hc
  | succ w ih =>
    intro c hc
    unfold padDigits at hc
    rcases List.mem_append.mp hc with h1 | h1
    · exact ih (n / 10) c h1
    · rcases List.mem_singleton.mp h1 with rfl
      exact isDigit_digitChar _ (Nat.mod_lt _ (by omega))

/-- Reading as many characters as a block of digits is long consumes
exactly that block and folds up its value. -/
theorem takeNum_digits (ds : List Char) (rest : List Char) (acc : Nat) :
    (∀ c ∈ ds, c.isDigit = true) →
    takeNum acc ds.length (ds ++ rest) =
      some (ds.foldl (fun a c => a * 10 + digitVal c) acc, rest) := by
  induction ds generalizing acc with
  | nil => intro _; rfl
  | cons c cs ih =>
    intro hd
    have hc := hd c (List.mem_cons_self c cs)
    simp only [List.length_cons, List.cons_append, takeNum, hc, if_true,
      List.foldl_cons]
    exact ih (acc * 10 + digitVal c)
      (fun x hx => hd x (List.mem_cons_of_mem c hx))

/-- Folding the digits of a zero-padded rendering of `n < 10 ^ w`
recovers `n` (on top of the shifted accumulator). -/
theorem foldl_padDigits (w : Nat) :
    ∀ n acc : Nat, n < 10 ^ w →
    (padDigits w n).foldl (fun a c => a * 10 + digitVal c) acc =
      acc * 10 ^ w + n := by
  induction w with
  | zero =>
    intro n acc h
    have hn : n = 0 := by simpa using h
    subst hn
    simp [padDigits]
  | succ w ih =>
    intro n acc h
    have hdiv : n / 10 < 10 ^ w := by
      refine Nat.div_lt_of_lt_mul ?_
      calc n < 10 ^ (w + 1) := h
        _ = 10 * 10 ^ w := by ring
    unfold padDigits
    rw [List.foldl_append, ih (n / 10) acc hdiv]
    simp only [List.foldl_cons, List.foldl_nil]
    rw [digitVal_digitChar _ (Nat.mod_lt _ (by omega))]
    calc (acc * 10 ^ w + n / 10) * 10 + n % 10
        = acc * (10 ^ w * 10) + (n / 10 * 10 + n % 10) := by ring
      _ = acc * 10 ^ (w + 1) + n := by
          rw [← pow_succ]
          congr 1
          omega

/-- Reading back a zero-padded `n < 10 ^ w` yields `n` and leaves the
rest of the input untouched. -/
theorem takeNum_padDigits (w n : Nat) (rest : List Char) (h : n < 10 ^ w) :
    takeNum 0 w (padDigits w n ++ rest) = some (n, rest) := by
  have h1 := takeNum_digits (padDigits w n) rest 0 (padDigits_all_digits w n)
  rw [padDigits_length] at h1
  rw [h1, foldl_padDigits w n 0 h]
  simp

/-- The expected punctuation character is consumed. -/
theorem expectChar_cons (c : Char) (rest : List Char) :
    expectChar c (c :: rest) = some rest := by
  simp [expectChar]

/-- Parsing inverts serialization: for every valid datetime, parsing the
ISO-8601 rendering recovers every field exactly. -/
theorem parseIsoChars_isoChars (t : Datetime) (h : t.Valid) :
    parseIsoChars t.isoChars = some t := by
  obtain ⟨y, mo, d, hh, mi, s, us⟩ := t
  obtain ⟨h1, h2, h3, h4, h5, h6, h7, h8, h9, h10⟩ := h
  have hy : y < 10 ^ 4 := lt_of_le_of_lt h2 (by norm_num)
  have hmo : mo < 10 ^ 2 := lt_of_le_of_lt h4 (by norm_num)
  have hd : d < 10 ^ 2 := lt_of_le_of_lt h6 (by norm_num)
  have hhh : hh < 10 ^ 2 := lt_of_le_of_lt h7 (by norm_num)
  have hmi : mi < 10 ^ 2 := lt_of_le_of_lt h8 (by norm_num)
  have hs : s < 10 ^ 2 := lt_of_le_of_lt h9 (by norm_num)
  have hus : us < 10 ^ 6 := lt_of_le_of_lt h10 (by norm_num)
  simp only [Datetime.isoChars, List.append_assoc, List.cons_append]
  unfold parseIsoChars
  rw [takeNum_padDigits 4 y _ hy]
  dsimp only
  rw [expectChar_cons]
  dsimp only
  rw [takeNum_padDigits 2 mo _ hmo]
  dsimp only
  rw [expectChar_cons]
  dsimp only
  rw [takeNum_padDigits 2 d _ hd]
  dsimp only
  rw [expectChar_cons]
  dsimp only
  rw [takeNum_padDigits 2 hh _ hhh]
  dsimp only
  rw [expectChar_cons]
  dsimp only
  rw [takeNum_padDigits 2 mi _ hmi]
  dsimp only
  rw [expectChar_cons]
  dsimp only
  rw [takeNum_padDigits 2 s _ hs]
  dsimp only
  by_cases h0 : us = 0
  · subst h0
    simp
  · have hne : (us == 0) = false := by simpa using h0
    rw [if_neg (by simp [hne])]
    dsimp only
    rw [if_pos rfl]
    rw [← List.append_nil (padDigits 6 us), takeNum_padDigits 6 us [] hus]

/-- String-level round trip: parsing `isoformat` output recovers the
datetime. -/
theorem fromIso_isoformat (t : Datetime) (h : t.Valid) :
    Datetime.fromIso t.isoformat = some t :=
  parseIsoChars_isoChars t h

/-- Rebuilding a draft from its serialized document recovers the draft
exactly, provided its datetime fields are valid. -/
theorem toDraft_model_dump (d : EmailDraft) (hc : d.created_at.Valid)
    (hu : d.updated_at.Valid) :
    DraftDoc.toDraft (EmailDraft.model_dump d) = some d := by
  unfold DraftDoc.toDraft EmailDraft.model_dump
  dsimp only
  rw [fromIso_isoformat d.created_at hc]
  dsimp only
  rw [fromIso_isoformat d.updated_at hu]

/-! ## Claim theorems -/

/-- Claim C1: after `categorize_single_email`, the email's category is one
of the five enum values, and whenever the result's category label is not a
member value (`EmailCategory(...)` raises `ValueError`), the category is
coerced to `UNCATEGORIZED` and the call still succeeds (the function is
total and returns the updated email). -/
theorem categorize_single_email_category_in_enum
    (db : List Email) (email : Email) (result : Jdict) :
    ((CategorizationAgent.categorize_single_email db email result).1.category =
        .URGENT ∨
     (CategorizationAgent.categorize_single_email db email result).1.category =
        .ACTION_REQUIRED ∨
     (CategorizationAgent.categorize_single_email db email result).1.category =
        .INFORMATIONAL ∨
     (CategorizationAgent.categorize_single_email db email result).1.category =
        .SPAM ∨
     (CategorizationAgent.categorize_single_email db email result).1.category =
        .UNCATEGORIZED) ∧
    (EmailCategory.ofValue (result.get "category" "UNCATEGORIZED") = none →
      (CategorizationAgent.categorize_single_email db email result).1.category =
        .UNCATEGORIZED) := by
  unfold CategorizationAgent.categorize_single_email
  cases h : EmailCategory.ofValue (result.get "category" "UNCATEGORIZED") with
  | none => simp [h]
  | some c =>
    simp only [h]
    refine ⟨?_, by intro hc; cases hc⟩
    cases c <;> simp

/-- Claim C1, witness: a result carrying the unrecognized label "PROMO"
is coerced to `UNCATEGORIZED`. -/
theorem categorize_single_email_category_in_enum_witness :
    (CategorizationAgent.categorize_single_email [] sampleEmail
        [("category", "PROMO")]).1.category = .UNCATEGORIZED :=
  (categorize_single_email_category_in_enum [] sampleEmail
      [("category", "PROMO")]).2 (by decide)

/-- Claim C2: when the fence-stripped raw response does not parse as JSON,
`categorize_email` returns the safe default dictionary and
`extract_action_items` returns the empty list; both are total functions,
so neither propagates the parse failure. -/
theorem llm_parse_failure_returns_safe_defaults
    (parseCat : String → Option Jdict)
    (parseAct : String → Option ExtractParse) (response : String)
    (hc : parseCat (LLMService.stripCodeFences response) = none)
    (ha : parseAct (LLMService.stripCodeFences response) = none) :
    LLMService.categorize_email parseCat response =
      [("category", "UNCATEGORIZED"), ("reason", "Unable to categorize")] ∧
    LLMService.extract_action_items parseAct response = [] := by
  unfold LLMService.categorize_email LLMService.extract_action_items
  rw [hc, ha]
  exact ⟨rfl, rfl⟩

/-- Claim C2, witness: a concrete non-JSON response under a parse
function that rejects it. -/
theorem llm_parse_failure_returns_safe_defaults_witness :
    LLMService.categorize_email (fun _ => none) "The email looks urgent." =
      [("category", "UNCATEGORIZED"), ("reason", "Unable to categorize")] ∧
    LLMService.extract_action_items (fun _ => none) "The email looks urgent." =
      [] :=
  llm_parse_failure_returns_safe_defaults (fun _ => none) (fun _ => none)
    "The email looks urgent." rfl rfl

/-- Claim C6: the reply draft's subject is "Re: " prepended to the
original subject unless that subject already starts with "Re: ", in which
case it is kept unchanged (no double-prefixing). -/
theorem generate_reply_draft_subject (original : Email) (reply_body : String)
    (followups : List String) (draft_id : String) (now : Datetime) :
    (pyStartsWith original.subject "Re: " = false →
      (DraftAgent.generate_reply_draft original reply_body followups
          draft_id now).subject = "Re: " ++ original.subject) ∧
    (pyStartsWith original.subject "Re: " = true →
      (DraftAgent.generate_reply_draft original reply_body followups
          draft_id now).subject = original.subject) := by
  unfold DraftAgent.generate_reply_draft
  constructor <;> intro h <;> simp [h]

/-- Claim C6, witness: original subject "Status Update" yields
"Re: Status Update"; original subject "Re: Status Update" is unchanged. -/
theorem generate_reply_draft_subject_witness :
    (DraftAgent.generate_reply_draft sampleEmail "Thanks." [] "d1"
        sampleTime).subject = "Re: Status Update" ∧
    (DraftAgent.generate_reply_draft sampleEmailRe "Thanks." [] "d1"
        sampleTime).subject = "Re: Status Update" :=
  ⟨((generate_reply_draft_subject sampleEmail "Thanks." [] "d1"
        sampleTime).1 (by decide)).trans rfl,
   (generate_reply_draft_subject sampleEmailRe "Thanks." [] "d1"
        sampleTime).2 (by decide)⟩

/-- Claim C9: in `process_email` there is no coercion of invalid category
labels — when the parsed result's category value is not an enum member,
the call fails with the propagated error, producing no updated email
collection and no vector upsert (the error carries no successor state;
the caller keeps the pre-call `db` and `vec`). -/
theorem process_email_invalid_category_raises
    (db : List Email) (vec : List (String × VecMetadata)) (email : Email)
    (category_result : Jdict) (action_items_data : List RawActionItem)
    (h : EmailCategory.ofValue
        (category_result.get "category" "UNCATEGORIZED") = none) :
    EmailService.process_email db vec email category_result
      action_items_data = .error () := by
  unfold EmailService.process_email
  rw [h]

/-- Claim C9, witness: a parsed result with the unrecognized label
"PROMOTIONS" makes `process_email` fail. -/
theorem process_email_invalid_category_raises_witness :
    EmailService.process_email [] [] sampleEmail
      [("category", "PROMOTIONS"), ("reason", "marketing blast")] [] =
      .error () :=
  process_email_invalid_category_raises [] [] sampleEmail
    [("category", "PROMOTIONS"), ("reason", "marketing blast")] [] (by decide)

/-- The upserted draft document is found again under its id. -/
theorem find?_upsertDraftDoc (db : List DraftDoc) (doc : DraftDoc) :
    List.find? (fun x => x.id == doc.id)
      (DatabaseService.upsertDraftDoc db doc) = some doc := by
  induction db with
  | nil => simp [DatabaseService.upsertDraftDoc, List.find?]
  | cons x rest ih =>
    unfold DatabaseService.upsertDraftDoc
    cases hx : x.id == doc.id with
    | true => simp [List.find?]
    | false => simpa [List.find?, hx] using ih

/-- Claim C10: `save_draft` overwrites the draft's `updated_at` with the
current time (mutating the returned draft object), and the document it
persists under the draft's id is the serialization of the supplied draft
with exactly that one field changed. -/
theorem save_draft_overwrites_updated_at
    (db : List DraftDoc) (draft : EmailDraft) (now : Datetime) :
    (DatabaseService.save_draft db draft now).2.2 =
      { draft with updated_at := now } ∧
    (DatabaseService.save_draft db draft now).2.2.updated_at = now ∧
    (DatabaseService.save_draft db draft now).1 = draft.id ∧
    List.find? (fun x => x.id == draft.id)
        (DatabaseService.save_draft db draft now).2.1 =
      some (EmailDraft.model_dump { draft with updated_at := now }) := by
  refine ⟨rfl, rfl, rfl, ?_⟩
  exact find?_upsertDraftDoc db (EmailDraft.model_dump { draft with updated_at := now })

/-! ## Sorting lemmas for the action-item aggregate -/

/-- The priority sort key only takes the values 0 through 3. -/
theorem priorityKey_le_three (p : String) : ActionItemAgent.priorityKey p ≤ 3 := by
  unfold ActionItemAgent.priorityKey
  repeat' split
  all_goals omega

/-- Elements of the key-`i` bucket have key `i`. -/
theorem key_of_mem_bucket (l : List AggEntry) (i : Nat) (x : AggEntry)
    (hx : x ∈ l.filter
      (fun y => ActionItemAgent.priorityKey y.action_item.priority == i)) :
    ActionItemAgent.priorityKey x.action_item.priority = i := by
  simpa using (List.mem_filter.mp hx).2

/-- The bucket concatenation is sorted by key: along the output, sort
keys are non-decreasing. -/
theorem sortByPriority_sorted (l : List AggEntry) :
    List.Pairwise
      (fun a b => ActionItemAgent.priorityKey a.action_item.priority ≤
        ActionItemAgent.priorityKey b.action_item.priority)
      (ActionItemAgent.sortByPriority l) := by
  unfold ActionItemAgent.sortByPriority
  simp only [List.pairwise_append, List.mem_append]
  have hb : ∀ i : Nat, List.Pairwise
      (fun a b => ActionItemAgent.priorityKey a.action_item.priority ≤
        ActionItemAgent.priorityKey b.action_item.priority)
      (l.filter
        (fun y => ActionItemAgent.priorityKey y.action_item.priority == i)) := by
    intro i
    refine List.pairwise_of_forall_mem_list ?_
    intro a ha b hb
    rw [key_of_mem_bucket l i a ha, key_of_mem_bucket l i b hb]
  refine ⟨⟨⟨hb 0, hb 1, ?_⟩, hb 2, ?_⟩, hb 3, ?_⟩
  · intro a ha b hb1
    rw [key_of_mem_bucket l 0 a ha, key_of_mem_bucket l 1 b hb1]
    omega
  · intro a ha b hb1
    rw [key_of_mem_bucket l 2 b hb1]
    rcases ha with h | h
    · rw [key_of_mem_bucket l 0 a h]; omega
    · rw [key_of_mem_bucket l 1 a h]; omega
  · intro a ha b hb1
    rw [key_of_mem_bucket l 3 b hb1]
    rcases ha with (h | h) | h
    · rw [key_of_mem_bucket l 0 a h]; omega
    · rw [key_of_mem_bucket l 1 a h]; omega
    · rw [key_of_mem_bucket l 2 a h]; omega

/-- Refiltering a bucket by its own key is the identity. -/
theorem bucket_filter_self (l : List AggEntry) (i : Nat) :
    (l.filter
        (fun y => ActionItemAgent.priorityKey y.action_item.priority == i)).filter
      (fun y => ActionItemAgent.priorityKey y.action_item.priority == i) =
    l.filter
      (fun y => ActionItemAgent.priorityKey y.action_item.priority == i) := by
  refine List.filter_eq_self.mpr ?_
  intro a ha
  exact (List.mem_filter.mp ha).2

/-- Filtering a bucket by a different key gives the empty list. -/
theorem bucket_filter_other (l : List AggEntry) (i k : Nat) (h : i ≠ k) :
    (l.filter
        (fun y => ActionItemAgent.priorityKey y.action_item.priority == i)).filter
      (fun y => ActionItemAgent.priorityKey y.action_item.priority == k) = [] := by
  refine List.filter_eq_nil_iff.mpr ?_
  intro a ha
  rw [key_of_mem_bucket l i a ha]
  simp [h]

/-- Stability of the bucket sort: the elements with any fixed key appear
in the output exactly as they appear, in order, in the input. -/
theorem sortByPriority_filter_eq (l : List AggEntry) (k : Nat) :
    (ActionItemAgent.sortByPriority l).filter
      (fun y => ActionItemAgent.priorityKey y.action_item.priority == k) =
    l.filter
      (fun y => ActionItemAgent.priorityKey y.action_item.priority == k) := by
  unfold ActionItemAgent.sortByPriority
  rcases k with _ | _ | _ | _ | n
  · simp [List.filter_append, bucket_filter_self,
      bucket_filter_other l 1 0 (by omega), bucket_filter_other l 2 0 (by omega),
      bucket_filter_other l 3 0 (by omega)]
  · simp [List.filter_append, bucket_filter_self,
      bucket_filter_other l 0 1 (by omega), bucket_filter_other l 2 1 (by omega),
      bucket_filter_other l 3 1 (by omega)]
  · simp [List.filter_append, bucket_filter_self,
      bucket_filter_other l 0 2 (by omega), bucket_filter_other l 1 2 (by omega),
      bucket_filter_other l 3 2 (by omega)]
  · simp [List.filter_append, bucket_filter_self,
      bucket_filter_other l 0 3 (by omega), bucket_filter_other l 1 3 (by omega),
      bucket_filter_other l 2 3 (by omega)]
  · have hnil : ∀ m : List AggEntry, m.filter
        (fun y => ActionItemAgent.priorityKey y.action_item.priority ==
          (n + 4)) = [] := by
      intro m
      refine List.filter_eq_nil_iff.mpr ?_
      intro a _
      have := priorityKey_le_three a.action_item.priority
      simp only [beq_iff_eq]
      omega
    simp [List.filter_append, hnil]

/-- Claim C4: the aggregate returned by `get_all_action_items` is sorted
by priority — every High entry precedes every Medium entry, Medium
precedes Low, and entries with any other priority string come last — and
the sort is stable: for each key, the output entries with that key are
exactly the flattened input entries with that key, in their input
order. -/
theorem get_all_action_items_sorted_and_stable
    (emails : List Email) (include_completed : Bool) :
    List.Pairwise
      (fun a b => ActionItemAgent.priorityKey a.action_item.priority ≤
        ActionItemAgent.priorityKey b.action_item.priority)
      (ActionItemAgent.get_all_action_items emails include_completed) ∧
    ∀ k : Nat,
      (ActionItemAgent.get_all_action_items emails include_completed).filter
        (fun y => ActionItemAgent.priorityKey y.action_item.priority == k) =
      (ActionItemAgent.collectItems emails include_completed).filter
        (fun y => ActionItemAgent.priorityKey y.action_item.priority == k) :=
  ⟨sortByPriority_sorted _, fun k => sortByPriority_filter_eq _ k⟩

/-- Membership in the sorted output implies membership in the input. -/
theorem mem_of_mem_sortByPriority (l : List AggEntry) (x : AggEntry)
    (hx : x ∈ ActionItemAgent.sortByPriority l) : x ∈ l := by
  unfold ActionItemAgent.sortByPriority at hx
  simp only [List.mem_append, List.mem_filter] at hx
  rcases hx with ((h | h) | h) | h <;> exact h.1

/-- Claim C5: with `include_completed = false`, every entry of the
aggregate has a non-completed action item; no completed item appears. -/
theorem get_all_action_items_excludes_completed (emails : List Email) :
    (ActionItemAgent.get_all_action_items emails false).all
      (fun x => !x.action_item.completed) = true := by
  rw [List.all_eq_true]
  intro x hx
  have hx1 : x ∈ ActionItemAgent.collectItems emails false :=
    mem_of_mem_sortByPriority _ x hx
  unfold ActionItemAgent.collectItems at hx1
  simp only [List.mem_flatMap, List.mem_map, List.mem_filter] at hx1
  obtain ⟨e, _, a, ⟨_, hcond⟩, rfl⟩ := hx1
  simpa using hcond

/-! ## Lemmas for completion idempotence -/

/-- Saving an email and looking it up by its id returns exactly the
saved email. -/
theorem get_email_save_email (db : List Email) (e : Email) :
    DatabaseService.get_email (DatabaseService.save_email db e) e.id =
      some e := by
  induction db with
  | nil => simp [DatabaseService.save_email, DatabaseService.get_email,
      List.find?]
  | cons x rest ih =>
    unfold DatabaseService.save_email
    cases hx : x.id == e.id with
    | true => simp [DatabaseService.get_email, List.find?]
    | false =>
      unfold DatabaseService.get_email at ih ⊢
      simp only [List.find?, hx]
      exact ih

/-- Re-saving the email just saved leaves the collection unchanged. -/
theorem save_email_save_email (db : List Email) (e : Email) :
    DatabaseService.save_email (DatabaseService.save_email db e) e =
      DatabaseService.save_email db e := by
  induction db with
  | nil => simp [DatabaseService.save_email]
  | cons x rest ih =>
    cases hx : x.id == e.id with
    | true => simp [DatabaseService.save_email, hx]
    | false => simp [DatabaseService.save_email, hx, ih]

/-- Reduction of `mark_action_item_complete` on a successful lookup and a
successful scan. -/
theorem mark_action_item_complete_eq_of (db : List Email)
    (email_id desc : String) (e e1 : Email) (items : List ActionItem)
    (hg : DatabaseService.get_email db email_id = some e)
    (hm : ActionItemAgent.markFirstMatch e.action_items desc = some items)
    (he1 : e1 = { e with action_items := items }) :
    ActionItemAgent.mark_action_item_complete db email_id desc =
      (true, DatabaseService.save_email db e1) := by
  subst he1
  unfold ActionItemAgent.mark_action_item_complete
  simp only [hg, hm]

/-- A successful scan splits the list at the first exact description
match, which is the one item set to completed. -/
theorem markFirstMatch_eq_some (l l' : List ActionItem) (desc : String)
    (h : ActionItemAgent.markFirstMatch l desc = some l') :
    ∃ pre item post,
      l = pre ++ item :: post ∧
      item.description = desc ∧
      (∀ x ∈ pre, ¬ x.description = desc) ∧
      l' = pre ++ { item with completed := true } :: post := by
  induction l generalizing l' with
  | nil => simp [ActionItemAgent.markFirstMatch] at h
  | cons a rest ih =>
    unfold ActionItemAgent.markFirstMatch at h
    cases ha : a.description == desc with
    | true =>
      rw [ha] at h
      simp only [if_true] at h
      refine ⟨[], a, rest, by simp, by simpa using ha, by simp, ?_⟩
      simpa using h.symm
    | false =>
      rw [ha] at h
      simp only [Bool.false_eq_true, if_false, Option.map_eq_some'] at h
      obtain ⟨rest', hrest, rfl⟩ := h
      obtain ⟨pre, item, post, hsplit, hdesc, hpre, hrest'⟩ := ih rest' hrest
      refine ⟨a :: pre, item, post, by simp [hsplit], hdesc, ?_, by simp [hrest']⟩
      intro x hx
      rcases List.mem_cons.mp hx with rfl | hx1
      · simpa using ha
      · exact hpre x hx1

/-- The scan finds the item after a prefix of non-matching items and
marks exactly it. -/
theorem markFirstMatch_append (pre : List ActionItem) (item : ActionItem)
    (post : List ActionItem) (desc : String)
    (hpre : ∀ x ∈ pre, ¬ x.description = desc)
    (hitem : item.description = desc) :
    ActionItemAgent.markFirstMatch (pre ++ item :: post) desc =
      some (pre ++ { item with completed := true } :: post) := by
  induction pre with
  | nil =>
    unfold ActionItemAgent.markFirstMatch
    simp [hitem]
  | cons a pre' ih =>
    unfold ActionItemAgent.markFirstMatch
    have ha : (a.description == desc) = false := by
      simpa using hpre a (List.mem_cons_self a pre')
    simp only [List.cons_append, ha, Bool.false_eq_true, if_false]
    rw [ih (fun x hx => hpre x (List.mem_cons_of_mem a hx))]
    rfl

/-- Claim C3: `mark_action_item_complete` is idempotent after a first
success.  If the first call returns true, there is a stored email whose
action-item list splits at the first exact description match, the
post-state stores that list with exactly that item marked completed, and
the second identical call returns true again and leaves the whole email
collection unchanged. -/
theorem mark_action_item_complete_idempotent
    (db : List Email) (email_id desc : String)
    (h : (ActionItemAgent.mark_action_item_complete db email_id desc).1 =
      true) :
    (ActionItemAgent.mark_action_item_complete
        (ActionItemAgent.mark_action_item_complete db email_id desc).2
        email_id desc).1 = true ∧
    (ActionItemAgent.mark_action_item_complete
        (ActionItemAgent.mark_action_item_complete db email_id desc).2
        email_id desc).2 =
      (ActionItemAgent.mark_action_item_complete db email_id desc).2 ∧
    ∃ e pre item post,
      DatabaseService.get_email db email_id = some e ∧
      e.action_items = pre ++ item :: post ∧
      item.description = desc ∧
      (∀ x ∈ pre, ¬ x.description = desc) ∧
      DatabaseService.get_email
          (ActionItemAgent.mark_action_item_complete db email_id desc).2
          email_id =
        some { e with
               action_items := pre ++ { item with completed := true } :: post } := by
  cases hg : DatabaseService.get_email db email_id with
  | none =>
    unfold ActionItemAgent.mark_action_item_complete at h
    simp only [hg] at h
    cases h
  | some e =>
    cases hm : ActionItemAgent.markFirstMatch e.action_items desc with
    | none =>
      unfold ActionItemAgent.mark_action_item_complete at h
      simp only [hg, hm] at h
      cases h
    | some items =>
      have hid : e.id = email_id := by
        have := List.find?_some hg
        simpa using this
      obtain ⟨pre, item, post, hsplit, hdesc, hpre, hitems⟩ :=
        markFirstMatch_eq_some e.action_items items desc hm
      have hfirst :
          ActionItemAgent.mark_action_item_complete db email_id desc =
            (true, DatabaseService.save_email db
              { e with action_items := items }) :=
        mark_action_item_complete_eq_of db email_id desc e _ items hg hm rfl
      have hget1 :
          DatabaseService.get_email
              (DatabaseService.save_email db { e with action_items := items })
              email_id = some { e with action_items := items } := by
        have h0 := get_email_save_email db { e with action_items := items }
        simpa [hid] using h0
      have hm2 :
          ActionItemAgent.markFirstMatch
            ({ e with action_items := items } : Email).action_items desc =
            some items := by
        show ActionItemAgent.markFirstMatch items desc = some items
        rw [hitems]
        exact markFirstMatch_append pre { item with completed := true }
          post desc hpre hdesc
      have hsecond :
          ActionItemAgent.mark_action_item_complete
              (DatabaseService.save_email db { e with action_items := items })
              email_id desc =
            (true, DatabaseService.save_email
              (DatabaseService.save_email db { e with action_items := items })
              { e with action_items := items }) :=
        mark_action_item_complete_eq_of _ email_id desc
          { e with action_items := items } _ items hget1 hm2 rfl
      have hsave2 := save_email_save_email db { e with action_items := items }
      refine ⟨?_, ?_, e, pre, item, post, rfl, hsplit, hdesc, hpre, ?_⟩
      · simp [hfirst, hsecond]
      · simp [hfirst, hsecond, hsave2]
      · simp only [hfirst]
        rw [← hitems]
        exact hget1

/-- Claim C3, witness: completing a concrete pending item succeeds, and
the second identical call also returns true and changes nothing. -/
theorem mark_action_item_complete_idempotent_witness :
    (ActionItemAgent.mark_action_item_complete
        (ActionItemAgent.mark_action_item_complete [sampleActionEmail] "e2"
          "submit report by Friday").2
        "e2" "submit report by Friday").1 = true ∧
    (ActionItemAgent.mark_action_item_complete
        (ActionItemAgent.mark_action_item_complete [sampleActionEmail] "e2"
          "submit report by Friday").2
        "e2" "submit report by Friday").2 =
      (ActionItemAgent.mark_action_item_complete [sampleActionEmail] "e2"
        "submit report by Friday").2 :=
  ⟨(mark_action_item_complete_idempotent [sampleActionEmail] "e2"
      "submit report by Friday" (by decide)).1,
   (mark_action_item_complete_idempotent [sampleActionEmail] "e2"
      "submit report by Friday" (by decide)).2.1⟩

/-- Claim C7: a draft saved and then reloaded by its id is recovered
exactly — every field, including both ISO-8601-serialized datetime
fields, equals the draft as persisted (the supplied draft with its
`updated_at` overwritten by the save time). -/
theorem save_draft_get_draft_roundtrip (db : List DraftDoc)
    (draft : EmailDraft) (now : Datetime)
    (hc : draft.created_at.Valid) (hn : now.Valid) :
    DatabaseService.get_draft
        (DatabaseService.save_draft db draft now).2.1 draft.id =
      some { draft with updated_at := now } := by
  unfold DatabaseService.get_draft DatabaseService.save_draft
  dsimp only
  have h1 := find?_upsertDraftDoc db
    (EmailDraft.model_dump { draft with updated_at := now })
  rw [show (fun (x : DraftDoc) => x.id == draft.id) =
      (fun (x : DraftDoc) => x.id ==
        (EmailDraft.model_dump { draft with updated_at := now }).id) from rfl]
  rw [h1]
  dsimp only [Option.bind]
  exact toDraft_model_dump { draft with updated_at := now } hc hn

/-- Claim C7, witness: a concrete draft with both microsecond branches of
the serialization exercised (nonzero `created_at.microsecond`, zero
`updated_at.microsecond` after the save). -/
theorem save_draft_get_draft_roundtrip_witness :
    DatabaseService.get_draft
        (DatabaseService.save_draft [] sampleDraft sampleTime2).2.1 "d7" =
      some { sampleDraft with updated_at := sampleTime2 } :=
  save_draft_get_draft_roundtrip [] sampleDraft sampleTime2
    (by decide) (by decide)

/-- Claim C8, counterexample: `get_action_items_by_priority` is not a
filter of the full aggregate (the one including completed items) — for a
stored email whose only action item is completed with priority High, the
full aggregate filtered to High has that entry, but
`get_action_items_by_priority "High"` returns the empty list. -/
theorem get_action_items_by_priority_not_full_aggregate :
    ¬ (ActionItemAgent.get_action_items_by_priority [sampleCompletedEmail]
        "High" =
       (ActionItemAgent.get_all_action_items [sampleCompletedEmail]
          true).filter
         (fun item => item.action_item.priority == "High")) := by
  decide

/-- Claim C8 as amended: `get_action_items_by_priority` is a pure filter
over the aggregate computed with `include_completed = false` (the default
of `get_all_action_items`): it equals that aggregate filtered by exact
priority match, and its members are exactly the members of that
aggregate whose priority equals the given string. -/
theorem get_action_items_by_priority_filters_default_aggregate
    (emails : List Email) (priority : String) :
    ActionItemAgent.get_action_items_by_priority emails priority =
      (ActionItemAgent.get_all_action_items emails false).filter
        (fun item => item.action_item.priority == priority) ∧
    ∀ x, x ∈ ActionItemAgent.get_action_items_by_priority emails priority ↔
      (x ∈ ActionItemAgent.get_all_action_items emails false ∧
        x.action_item.priority = priority) := by
  constructor
  · rfl
  · intro x
    unfold ActionItemAgent.get_action_items_by_priority
    simp [List.mem_filter]
